import Mathlib

/-!
Verification of the `wasm-bindgen-test-runner` HTTP server
(`crates/cli/src/bin/wasm-bindgen-test-runner/server.rs`).

The embedding models the handler state, the URL parsing performed with the
`url` crate, the two-root asset resolution of `try_asset`, the content-type
table `mime`, the bootstrap-script generation and startup sequence of `spawn`,
and the per-request logic of `Handler::process_request`.  Filesystem state is
a finite association of paths to file contents; effectful operations are
explicit functions of that state.
-/

set_option maxRecDepth 20000

namespace WbgServer

/-- A parsed URL.  Only the path component is consulted by the server code
(via `url.path()` in `try_asset`). -/
structure Url where
  path : String
deriving DecidableEq

/-- Characters allowed inside a URL scheme after the leading letter
(WHATWG / RFC 3986: ASCII alphanumerics, `+`, `-`, `.`). -/
def isSchemeChar (c : Char) : Bool :=
  c.isAlphanum || c == '+' || c == '-' || c == '.'

/-- Scan a scheme: consume scheme characters up to a `:`, returning the
scheme read so far (accumulated in reverse) and the remainder; fail when a
non-scheme character or the end of input is met first. -/
def schemeAux : List Char → List Char → Option (List Char × List Char)
  | _, [] => none
  | acc, c :: rest =>
    if c = ':' then some (acc.reverse, rest)
    else if isSchemeChar c then schemeAux (c :: acc) rest
    else none

/-- The WHATWG special schemes. -/
def specialSchemes : List String := ["http", "https", "ws", "wss", "ftp", "file"]

/-- Modelled from the `url` crate (WHATWG URL Standard), restricted to what
the server consults.  `Url::parse` succeeds only on absolute URLs — a leading
ASCII-letter-initiated scheme followed by `:`; in particular a relative
reference such as "/" fails with `RelativeUrlWithoutBase`.  For special
schemes the slashes after the colon are skipped, a non-empty authority is
required, and an empty path is normalised to "/".  For other schemes either
an explicit `//authority` is consumed, or the remainder is the
(possibly slash-less, cannot-be-a-base) path.  The query (`?...`) and the
fragment (`#...`) are not part of the path.  Percent-encoding, `\x5c` as a
separator, host validation and userinfo are not modelled; no claim depends
on them. -/
def Url.parse (s : String) : Option Url :=
  match s.data with
  | [] => none
  | c :: rest =>
    if c.isAlpha then
      match schemeAux [c] rest with
      | none => none
      | some (scheme, after) =>
        let lower := String.mk (scheme.map Char.toLower)
        if specialSchemes.contains lower then
          let r := after.dropWhile (fun c => c == '/')
          let auth := r.takeWhile (fun c => !(c == '/' || c == '?' || c == '#'))
          if auth.isEmpty then none
          else
            let r2 := r.dropWhile (fun c => !(c == '/' || c == '?' || c == '#'))
            let raw := r2.takeWhile (fun c => !(c == '?' || c == '#'))
            some ⟨if raw.isEmpty then "/" else String.mk raw⟩
        else
          match after with
          | '/' :: '/' :: r =>
            let r2 := r.dropWhile (fun c => !(c == '/' || c == '?' || c == '#'))
            let raw := r2.takeWhile (fun c => !(c == '?' || c == '#'))
            some ⟨String.mk raw⟩
          | _ =>
            some ⟨String.mk (after.takeWhile (fun c => !(c == '?' || c == '#')))⟩
    else none

/-- `str::strip_prefix` at the separator character, as used on `url.path()`:
`some` of the remainder when the string starts with `/`, `none` otherwise. -/
def stripSlash (s : String) : Option String :=
  match s.data with
  | c :: rest => if c = '/' then some (String.mk rest) else none
  | [] => none

/-- `Path::join` for the shapes occurring in the server: a relative `rel` is
appended after a separator, an absolute `rel` replaces `dir` (Rust `join`
semantics). -/
def pathJoin (dir rel : String) : String :=
  if rel.data.head? = some '/' then rel
  else if dir.data.getLast? = some '/' then dir ++ rel
  else dir ++ "/" ++ rel

/-- Split a character list at every occurrence of `sep`; the separators are
dropped and the (possibly empty) pieces kept.  Total: the result is always
non-empty. -/
def splitOnChar (sep : Char) : List Char → List (List Char)
  | [] => [[]]
  | c :: rest =>
    if c = sep then [] :: splitOnChar sep rest
    else
      match splitOnChar sep rest with
      | [] => [[c]]
      | l :: ls => (c :: l) :: ls

/-- `Path::file_name`: the last normal component of the path — empty and `.`
components are skipped (so trailing separators are ignored), and a path
ending in `..` has no file name. -/
def fileName (p : String) : Option String :=
  let comps := (splitOnChar '/' p.data).filter (fun c => !(c.isEmpty || c == ['.']))
  match comps.getLast? with
  | none => none
  | some c => if c == ['.', '.'] then none else some (String.mk c)

/-- The extension of a file name (Rust `Path::extension` on the final
component): `none` when there is no `.` or when the only `.` is the leading
one; otherwise the portion after the last `.`. -/
def extAfterDot (name : String) : Option String :=
  match splitOnChar '.' name.data with
  | [] => none
  | [_] => none
  | [[], _] => none
  | _ :: rest => (rest.getLast?).map (fun c => String.mk c)

/-- `Path::extension().and_then(|s| s.to_str())` of `try_asset` and `mime`
(every modelled name is valid unicode, so `to_str` never fails). -/
def pathExt (p : String) : Option String := (fileName p).bind extAfterDot

/-- `PathBuf::set_extension("js")` as used in `try_asset`: the call is only
reached when `extension()` is `none`, where it appends `.js` to the file
name — i.e. to the path, for the separator-free-tail paths produced by the
preceding `join`. -/
def setExtJs (p : String) : String := p ++ ".js"

/-- The filesystem: a finite association of paths to the byte contents of
existing readable regular files. -/
abbrev FS := List (String × String)

/-- `fs::File::open` followed by reading the file: the contents when `p`
names an existing readable file, `none` otherwise. -/
def fsOpen (fs : FS) (p : String) : Option String :=
  (fs.find? (fun e => e.1 == p)).map (fun e => e.2)

/-- A response as the handler builds it: status, optional `Content-Type`
header, body bytes.  `tiny_http::Response::empty(404)` is
status 404, no content type, empty body. -/
structure Resp where
  status : Nat
  contentType : Option String
  body : String
deriving DecidableEq

/-- `Response::empty(404)`, the `e404` closure of `process_request`. -/
def e404 : Resp := ⟨404, none, ""⟩

/-- `Response::from_data(..)`/`Response::from_file(..)` followed by
`.with_header(mime ..)`: status 200, the given content type, the given
body. -/
def fileResp (body ct : String) : Resp := ⟨200, some ct, body⟩

/-- The `mime` content-type table.  (`Header::from_bytes` is applied to fixed
valid ASCII names and values, so its `unwrap` never fails; only the value
string is modelled.) -/
def mime (p : String) : String :=
  match pathExt p with
  | some "js" => "text/javascript"
  | some "wasm" => "application/wasm"
  | some "html" => "text/html"
  | _ => "application/octet-stream"

/-- `try_asset`, instrumented with the list of paths passed to
`fs::File::open`, in call order (second component). -/
def tryAssetAcc (fs : FS) (url : Url) (dir : String) : Option Resp × List String :=
  match stripSlash url.path with
  | none => (none, [])
  | some rel =>
    let fullPath := pathJoin dir rel
    match fsOpen fs fullPath with
    | some f => (some (fileResp f (mime fullPath)), [fullPath])
    | none =>
      if pathExt fullPath = none then
        let fp2 := setExtJs fullPath
        match fsOpen fs fp2 with
        | some f => (some (fileResp f (mime fp2)), [fullPath, fp2])
        | none => (none, [fullPath, fp2])
      else (none, [fullPath])

/-- `try_asset`: the response, when one of the candidate files exists. -/
def tryAsset (fs : FS) (url : Url) (dir : String) : Option Resp :=
  (tryAssetAcc fs url dir).1

/-- The handler state: work directory (`tmpdir`) and headless flag,
immutable after construction. -/
structure Handler where
  tmpdir : String
  headless : Bool

/-- Modelled from the spec: the contents of the bundled interactive root-page
template `index.html`, which is not among the provided sources.  The spec
only requires two fixed, distinct markup payloads that differ in where
captured console output is routed. -/
def indexHtml : String :=
  "<html>interactive template: console output goes to the native console</html>"

/-- Modelled from the spec: the contents of the bundled headless root-page
template `index-headless.html` (see `indexHtml`). -/
def indexHeadlessHtml : String :=
  "<html>headless template: console output goes to a DOM element</html>"

/-- `Handler::process_request`.  `requestUrl` is `tiny_http::Request::url()`,
the raw request-target from the HTTP request line.  The result is the
response the handler answers with, paired with the (unchanged) filesystem so
that the absence of filesystem mutation is explicit in the type. -/
def processRequest (h : Handler) (fs : FS) (requestUrl : String) : Resp × FS :=
  match Url.parse requestUrl with
  | none => (e404, fs)
  | some url =>
    if requestUrl = "/" then
      let s := if h.headless then indexHeadlessHtml else indexHtml
      (fileResp s (mime "index.html"), fs)
    else
      match tryAsset fs url h.tmpdir with
      | some r => (r, fs)
      | none =>
        match tryAsset fs url "." with
        | some r => (r, fs)
        | none => (e404, fs)

/-- The ordered candidate file paths `try_asset` probes for a given root:
the bare join, then — only when the joined path has no extension — the join
with the script extension appended. -/
def candidates (url : Url) (dir : String) : List String :=
  match stripSlash url.path with
  | none => []
  | some rel =>
    let fullPath := pathJoin dir rel
    if pathExt fullPath = none then [fullPath, setExtJs fullPath] else [fullPath]

/-- The path the two-root resolution of `process_request` resolves to: the
first existing candidate, probing all of `dirA`'s candidates before
`dirB`'s. -/
def resolveEither (fs : FS) (url : Url) (dirA dirB : String) : Option String :=
  (candidates url dirA ++ candidates url dirB).find? (fun p => (fsOpen fs p).isSome)

/-- Join a list of strings (the repeated `push_str` of the `for` loop in
`spawn`). -/
def strJoin : List String → String
  | [] => ""
  | s :: rest => s ++ strJoin rest

/-- Join a list of strings with a separator between elements. -/
def sepJoin (sep : String) : List String → String
  | [] => ""
  | [x] => x
  | x :: y :: xs => x ++ sep ++ sepJoin sep (y :: xs)

/-- `format!("{:?}", args)` for the `&[OsString]` runtime-argument slice,
for arguments whose characters need no escaping (no `\x22`, no `\x5c`, no
control characters): every element is printed double-quoted, the list is
bracketed and comma-space separated. -/
def debugArgs (args : List String) : String :=
  "[" ++ sepJoin ", " (args.map (fun a => "\x22" ++ a ++ "\x22")) ++ "]"

/-- The body of the bootstrap-script template of `spawn` (the `format!` raw
string), with `module` spliced for the two `\x7b0\x7d` placeholders and the
debug-formatted `args` for `\x7b1:?\x7d`, up to but excluding the template's
trailing newline-plus-indentation. -/
def jsHdrBody (module : String) (args : List String) : String :=
  "\n" ++
  "        import \x7b\n" ++
  "            WasmBindgenTestContext as Context,\n" ++
  "            __wbgtest_console_debug,\n" ++
  "            __wbgtest_console_log,\n" ++
  "            __wbgtest_console_info,\n" ++
  "            __wbgtest_console_warn,\n" ++
  "            __wbgtest_console_error,\n" ++
  "            default as init,\n" ++
  "        \x7d from \x27./" ++ module ++ "\x27;\n" ++
  "\n" ++
  "        // Now that we\x27ve gotten to the point where JS is executing, update our\n" ++
  "        // status text as at this point we should be asynchronously fetching the\n" ++
  "        // wasm module.\n" ++
  "        document.getElementById(\x27output\x27).textContent = \x22Loading wasm module...\x22;\n" ++
  "\n" ++
  "        async function main(test) \x7b\n" ++
  "            const wasm = await init(\x27./" ++ module ++ "_bg.wasm\x27);\n" ++
  "\n" ++
  "            const cx = new Context();\n" ++
  "            window.on_console_debug = __wbgtest_console_debug;\n" ++
  "            window.on_console_log = __wbgtest_console_log;\n" ++
  "            window.on_console_info = __wbgtest_console_info;\n" ++
  "            window.on_console_warn = __wbgtest_console_warn;\n" ++
  "            window.on_console_error = __wbgtest_console_error;\n" ++
  "\n" ++
  "            // Forward runtime arguments. These arguments are also arguments to the\n" ++
  "            // \x60wasm-bindgen-test-runner\x60 which forwards them to node which we\n" ++
  "            // forward to the test harness. this is basically only used for test\n" ++
  "            // filters for now.\n" ++
  "            cx.args(" ++ debugArgs args ++ ");\n" ++
  "\n" ++
  "            await cx.run(test.map(s => wasm[s]));\n" ++
  "        \x7d\n" ++
  "\n" ++
  "        const tests = [];"

/-- The full initial value of `js_to_execute` in `spawn`: the template body
followed by its trailing newline and closing indentation. -/
def jsHeader (module : String) (args : List String) : String :=
  jsHdrBody module args ++ "\n    "

/-- One registration statement, without its terminating newline. -/
def regText (t : String) : String := "tests.push(\x27" ++ t ++ "\x27);"

/-- `format!("tests.push('\x7b\x7d');\n", test)`, the string pushed per test
in `spawn`'s loop. -/
def regStmt (t : String) : String := regText t ++ "\n"

/-- The complete generated bootstrap script: template, one registration
statement per test in the order supplied, and the final invocation of the
entry routine. -/
def jsToExecute (module : String) (args : List String) (tests : List String) : String :=
  jsHeader module args ++ strJoin (tests.map regStmt) ++ "main(tests);\n"

/-- The world `spawn` acts on: the filesystem plus the outcomes of its two
fallible effects (writing the bootstrap script, binding the socket). -/
structure SpawnWorld where
  fs : FS
  writeOk : Bool
  bindOk : Bool
deriving DecidableEq

/-- `fs::write(&js_path, js_to_execute).context("failed to write JS file")`:
on success the file appears in the filesystem, on failure the error carries
the context message. -/
def fsWrite (w : SpawnWorld) (p s : String) : Except String SpawnWorld :=
  if w.writeOk then .ok { w with fs := (p, s) :: w.fs }
  else .error "failed to write JS file"

/-- `tiny_http::Server::http(addr).map_err(|e| anyhow!(e))`; the concrete
message text of a bind failure is the library's and is not observable by any
claim. -/
def bindSocket (w : SpawnWorld) (addr : String) : Except String Unit :=
  if w.bindOk then .ok () else .error ("failed to bind " ++ addr)

/-- The `Server` value returned by `spawn` (the bound listener itself carries
no further observable state in the model). -/
structure Server where
  handler : Handler

/-- `spawn`: generate the bootstrap script, write it to `tmpdir/run.js`, then
bind the listening socket and return the server.  The final world is
returned alongside the result so that the effects of failing runs stay
observable. -/
def spawn (addr : String) (headless : Bool) (module : String) (tmpdir : String)
    (args : List String) (tests : List String) (w : SpawnWorld) :
    Except String Server × SpawnWorld :=
  let js := jsToExecute module args tests
  let jsPath := pathJoin tmpdir "run.js"
  match fsWrite w jsPath js with
  | .error e => (.error e, w)
  | .ok w2 =>
    match bindSocket w2 addr with
    | .error e => (.error e, w2)
    | .ok _ => (.ok { handler := { tmpdir := tmpdir, headless := headless } }, w2)

/-- The lines of a character list (split at every newline). -/
def linesOf (s : List Char) : List (List Char) := splitOnChar '\n' s

/-- The number of (possibly overlapping) occurrences of `pat` as a
contiguous segment of `s`. -/
def occCount (pat : List Char) : List Char → Nat
  | [] => 0
  | c :: rest => (if List.isPrefixOf pat (c :: rest) then 1 else 0) + occCount pat rest

/-- The character list of one registration line. -/
def regLine (t : String) : List Char := (regText t).data

/-- The lines contributed after the template body by `spawn`'s loop and the
final invocation, with `pre` the residual indentation that the template's
last (newline-terminated) piece leaves in front of the first of them. -/
def linesTail : List String → List Char → List (List Char)
  | [], pre => [pre ++ "main(tests);".data, []]
  | t :: ts, pre => (pre ++ regLine t) :: linesTail ts []

/-! ### Helper lemmas -/

theorem splitOnChar_ne_nil (sep : Char) (s : List Char) : splitOnChar sep s ≠ [] := by
  induction s with
  | nil => simp [splitOnChar]
  | cons c rest ih =>
    simp only [splitOnChar]
    by_cases h : c = sep
    · simp [h]
    · simp only [if_neg h]
      cases hs : splitOnChar sep rest with
      | nil => simp
      | cons l ls => simp

theorem splitOnChar_append (sep : Char) (xs ys : List Char) :
    splitOnChar sep (xs ++ sep :: ys) = splitOnChar sep xs ++ splitOnChar sep ys := by
  induction xs with
  | nil => simp [splitOnChar]
  | cons c rest ih =>
    by_cases h : c = sep
    · simp [splitOnChar, h, ih]
    · simp only [List.cons_append, splitOnChar, if_neg h, ih]
      cases hs : splitOnChar sep rest with
      | nil => exact absurd hs (splitOnChar_ne_nil sep rest)
      | cons l ls => simp [hs, ih]

theorem splitOnChar_single (sep : Char) (xs : List Char) (h : sep ∉ xs) :
    splitOnChar sep xs = [xs] := by
  induction xs with
  | nil => rfl
  | cons c rest ih =>
    simp only [List.mem_cons, not_or] at h
    have hcs : ¬ c = sep := fun hc => h.1 hc.symm
    simp [splitOnChar, hcs, ih h.2]

theorem strJoin_data (l : List String) : (strJoin l).data = (l.map String.data).flatten := by
  induction l with
  | nil => rfl
  | cons s rest ih => simp [strJoin, String.data_append, ih]

theorem regStmt_data (t : String) : (regStmt t).data = regLine t ++ ['\n'] :=
  String.data_append (regText t) "\n"

theorem nl_not_mem_regLine (t : String) (h : '\n' ∉ t.data) : '\n' ∉ regLine t := by
  intro hm
  simp only [regLine, regText, String.data_append, List.mem_append] at hm
  rcases hm with (h1 | h2) | h3
  · exact absurd h1 (by decide)
  · exact h h2
  · exact absurd h3 (by decide)

theorem linesTail_spec (tests : List String) (pre : List Char)
    (hpre : '\n' ∉ pre) (ht : ∀ t ∈ tests, '\n' ∉ t.data) :
    splitOnChar '\n' (pre ++ ((tests.map regStmt).map String.data).flatten ++ "main(tests);\n".data)
      = linesTail tests pre := by
  induction tests generalizing pre with
  | nil =>
    have hd : "main(tests);\n".data = "main(tests);".data ++ ['\n'] := by decide
    have hre : pre ++ ((([] : List String).map regStmt).map String.data).flatten
          ++ "main(tests);\n".data
        = (pre ++ "main(tests);".data) ++ '\n' :: [] := by
      simp [hd]
    rw [hre, splitOnChar_append,
      splitOnChar_single _ _ (by
        intro hmem
        rcases List.mem_append.mp hmem with h1 | h2
        · exact hpre h1
        · exact absurd h2 (by decide))]
    rfl
  | cons t ts ih =>
    have hre : pre ++ (((t :: ts).map regStmt).map String.data).flatten ++ "main(tests);\n".data
        = (pre ++ regLine t)
          ++ '\n' :: (((ts.map regStmt).map String.data).flatten ++ "main(tests);\n".data) := by
      simp [regStmt_data, List.append_assoc]
    rw [hre, splitOnChar_append,
      splitOnChar_single _ _ (by
        intro hmem
        rcases List.mem_append.mp hmem with h1 | h2
        · exact hpre h1
        · exact nl_not_mem_regLine t (ht t (List.mem_cons_self t ts)) h2)]
    have := ih [] (by simp) (fun u hu => ht u (List.mem_cons_of_mem t hu))
    rw [List.nil_append] at this
    rw [this]
    rfl

theorem bootstrap_lines (m : String) (args : List String) (tests : List String)
    (ht : ∀ t ∈ tests, '\n' ∉ t.data) :
    linesOf (jsToExecute m args tests).data
      = linesOf (jsHdrBody m args).data ++ linesTail tests "    ".data := by
  have hsp : "\n    ".data = '\n' :: "    ".data := by decide
  have h1 : (jsToExecute m args tests).data
      = (jsHdrBody m args).data
        ++ '\n' :: ("    ".data ++ (((tests.map regStmt).map String.data).flatten
            ++ "main(tests);\n".data)) := by
    simp [jsToExecute, jsHeader, String.data_append, strJoin_data, hsp, List.append_assoc]
  rw [linesOf, h1, splitOnChar_append]
  have h2 := linesTail_spec tests "    ".data (by decide) ht
  rw [List.append_assoc] at h2
  rw [h2]
  rfl

theorem parse_root_none : Url.parse "/" = none := rfl

theorem parse_some_ne_root {req : String} {u : Url} (h : Url.parse req = some u) :
    req ≠ "/" := by
  intro hr
  subst hr
  rw [parse_root_none] at h
  exact Option.noConfusion h

theorem stripSlash_eq_none {s : String} (h : s.data.head? ≠ some '/') :
    stripSlash s = none := by
  unfold stripSlash
  cases hd : s.data with
  | nil => rfl
  | cons c rest =>
    rw [hd] at h
    simp only [List.head?_cons, ne_eq, Option.some.injEq] at h
    simp [h]

theorem tryAsset_eq_find (fs : FS) (url : Url) (dir : String) :
    tryAsset fs url dir
      = ((candidates url dir).find? (fun p => (fsOpen fs p).isSome)).map
          (fun p => fileResp ((fsOpen fs p).getD "") (mime p)) := by
  unfold tryAsset tryAssetAcc candidates
  cases hs : stripSlash url.path with
  | none => simp
  | some rel =>
    simp only
    by_cases he : pathExt (pathJoin dir rel) = none
    · cases ho : fsOpen fs (pathJoin dir rel) with
      | some f => simp [he, ho, List.find?]
      | none =>
        cases h2 : fsOpen fs (setExtJs (pathJoin dir rel)) with
        | some f => simp [he, ho, h2, List.find?]
        | none => simp [he, ho, h2, List.find?]
    · cases ho : fsOpen fs (pathJoin dir rel) with
      | some f => simp [he, ho, List.find?]
      | none => simp [he, ho, List.find?]

theorem processRequest_parsed (h : Handler) (fs : FS) (req : String) (url : Url)
    (hp : Url.parse req = some url) :
    processRequest h fs req
      = (((resolveEither fs url h.tmpdir ".").map
            (fun p => fileResp ((fsOpen fs p).getD "") (mime p))).getD e404, fs) := by
  unfold processRequest
  rw [hp]
  simp only [if_neg (parse_some_ne_root hp)]
  rw [resolveEither, List.find?_append]
  cases hA : (candidates url h.tmpdir).find? (fun p => (fsOpen fs p).isSome) with
  | some p => simp [tryAsset_eq_find, hA, Option.or]
  | none =>
    cases hB : (candidates url ".").find? (fun p => (fsOpen fs p).isSome) with
    | some p => simp [tryAsset_eq_find, hA, hB, Option.or]
    | none => simp [tryAsset_eq_find, hA, hB, Option.or]

/-! ### Claim theorems -/

/-- C1 (code bug).  For the actual root request — `request.url()` equal to
"/" — the handler answers the empty 404 response and never the template:
`Url::parse` rejects the relative reference "/" before the root-path check is
reached.  Moreover the template branch is unreachable for every request,
since it requires both a successful parse and `request.url() == "/"`, which
the second conjunct shows to be contradictory. -/
theorem root_request_gets_404 :
    (∀ (h : Handler) (fs : FS), processRequest h fs "/" = (e404, fs)) ∧
    (∀ (req : String) (u : Url), Url.parse req = some u → req ≠ "/") := by
  constructor
  · intro h fs
    unfold processRequest
    rw [parse_root_none]
  · intro req u hp
    exact parse_some_ne_root hp

/-- Witness for `root_request_gets_404` at concrete inputs. -/
theorem root_request_gets_404_witness :
    processRequest ⟨"tmp", true⟩ [] "/" = (e404, []) ∧ "http://h/a" ≠ "/" :=
  ⟨root_request_gets_404.1 ⟨"tmp", true⟩ [],
   root_request_gets_404.2 "http://h/a" ⟨"/a"⟩ (by decide)⟩

/-- C2.  Whenever the request parses and the two-root resolution finds an
existing readable file, the response is that file's bytes with the content
type the extension table assigns to the resolved path. -/
theorem resolved_asset_served (h : Handler) (fs : FS) (req : String) (url : Url)
    (p c : String)
    (hp : Url.parse req = some url)
    (hr : resolveEither fs url h.tmpdir "." = some p)
    (hc : fsOpen fs p = some c) :
    processRequest h fs req = (fileResp c (mime p), fs) := by
  rw [processRequest_parsed h fs req url hp, hr]
  simp [hc]

/-- Witness for `resolved_asset_served` at concrete inputs. -/
theorem resolved_asset_served_witness :
    processRequest ⟨"tmp", false⟩ [("tmp/a.js", "X")] "http://h/a.js"
      = (fileResp "X" "text/javascript", [("tmp/a.js", "X")]) :=
  resolved_asset_served ⟨"tmp", false⟩ [("tmp/a.js", "X")] "http://h/a.js" ⟨"/a.js"⟩
    "tmp/a.js" "X" (by decide) (by decide) (by decide)

/-- C3 counterexample.  With the bare path existing only under the project
root and the extension-appended path existing under the work root, the code
returns the work root's extension-appended file, not — as the claim states —
the bare file under the project root. -/
theorem resolution_order_cex :
    fsOpen [("tmp/foo.js", "extA"), ("./foo", "bareB")] (pathJoin "tmp" "foo") = none ∧
    pathExt (pathJoin "tmp" "foo") = none ∧
    fsOpen [("tmp/foo.js", "extA"), ("./foo", "bareB")] (pathJoin "." "foo")
      = some "bareB" ∧
    fsOpen [("tmp/foo.js", "extA"), ("./foo", "bareB")] (setExtJs (pathJoin "tmp" "foo"))
      = some "extA" ∧
    resolveEither [("tmp/foo.js", "extA"), ("./foo", "bareB")] ⟨"/foo"⟩ "tmp" "."
      = some "tmp/foo.js" ∧
    processRequest ⟨"tmp", false⟩ [("tmp/foo.js", "extA"), ("./foo", "bareB")]
        "http://h/foo"
      = (fileResp "extA" "text/javascript", [("tmp/foo.js", "extA"), ("./foo", "bareB")]) ∧
    fileResp "extA" "text/javascript" ≠ fileResp "bareB" "application/octet-stream" := by
  decide

/-- C3 as amended.  The resolver probes, in order, the bare join under
`rootA`, then (when the joined path has no extension) that join with the
script extension appended, and only then the same two candidates under
`rootB`; the first existing file wins.  Consequently, in the claim's
scenario the work root's extension-appended file is returned (second
conjunct, at the counterexample's filesystem). -/
theorem resolution_order_per_root :
    (∀ (fs : FS) (url : Url) (dA dB : String),
      (tryAsset fs url dA).or (tryAsset fs url dB)
        = (resolveEither fs url dA dB).map
            (fun p => fileResp ((fsOpen fs p).getD "") (mime p))) ∧
    resolveEither [("tmp/foo.js", "extA"), ("./foo", "bareB")] ⟨"/foo"⟩ "tmp" "."
      = some "tmp/foo.js" := by
  constructor
  · intro fs url dA dB
    rw [resolveEither, List.find?_append, tryAsset_eq_find, tryAsset_eq_find]
    cases hA : (candidates url dA).find? (fun p => (fsOpen fs p).isSome) with
    | some p => simp [hA, Option.or]
    | none =>
      cases hB : (candidates url dB).find? (fun p => (fsOpen fs p).isSome) with
      | some p => simp [hA, hB, Option.or]
      | none => simp [hA, hB, Option.or]
  · decide

/-- C4 counterexample.  The requested path has no extension and the
extension-appended file exists under the work root, yet the resolver returns
the bare file (which also exists), not the extension-appended one. -/
theorem ext_fallback_cex :
    pathExt (pathJoin "tmp" "foo") = none ∧
    fsOpen [("tmp/foo", "bare"), ("tmp/foo.js", "ext")] (setExtJs (pathJoin "tmp" "foo"))
      = some "ext" ∧
    resolveEither [("tmp/foo", "bare"), ("tmp/foo.js", "ext")] ⟨"/foo"⟩ "tmp" "."
      = some "tmp/foo" ∧
    "tmp/foo" ≠ setExtJs (pathJoin "tmp" "foo") ∧
    "tmp/foo" ≠ setExtJs (pathJoin "." "foo") ∧
    processRequest ⟨"tmp", false⟩ [("tmp/foo", "bare"), ("tmp/foo.js", "ext")]
        "http://h/foo"
      = (fileResp "bare" "application/octet-stream",
         [("tmp/foo", "bare"), ("tmp/foo.js", "ext")]) := by
  decide

/-- C4 as amended.  For a requested path whose joins have no extension
component and whose bare joins exist under neither root, resolution is
exactly the extension-appended lookup: it returns the work root's
`.js`-appended file when that exists, else the project root's, else
nothing.  In particular, when either extension-appended file exists,
resolution succeeds and returns it. -/
theorem ext_fallback_resolves (fs : FS) (url : Url) (dA dB rel : String)
    (hs : stripSlash url.path = some rel)
    (hA : pathExt (pathJoin dA rel) = none)
    (hB : pathExt (pathJoin dB rel) = none)
    (hbA : fsOpen fs (pathJoin dA rel) = none)
    (hbB : fsOpen fs (pathJoin dB rel) = none) :
    resolveEither fs url dA dB
      = if (fsOpen fs (setExtJs (pathJoin dA rel))).isSome
          then some (setExtJs (pathJoin dA rel))
        else if (fsOpen fs (setExtJs (pathJoin dB rel))).isSome
          then some (setExtJs (pathJoin dB rel))
        else none := by
  unfold resolveEither candidates
  rw [hs]
  simp only [hA, hB, if_pos rfl]
  cases hEA : fsOpen fs (setExtJs (pathJoin dA rel)) with
  | some f => simp [List.find?, hbA, hbB, hEA]
  | none =>
    cases hEB : fsOpen fs (setExtJs (pathJoin dB rel)) with
    | some f => simp [List.find?, hbA, hbB, hEA, hEB]
    | none => simp [List.find?, hbA, hbB, hEA, hEB]

/-- Witness for `ext_fallback_resolves` at concrete inputs. -/
theorem ext_fallback_resolves_witness :
    resolveEither [("./foo.js", "X")] ⟨"/foo"⟩ "tmp" "." = some "./foo.js" :=
  ext_fallback_resolves [("./foo.js", "X")] ⟨"/foo"⟩ "tmp" "." "foo"
    (by decide) (by decide) (by decide) (by decide) (by decide)

/-- C5.  A request that fails to parse, and a parsed request none of whose
candidate files exists under either root (bare, and extension-appended when
the path has no extension), are both answered with the fixed empty-body 404
response. -/
theorem absent_asset_404 (h : Handler) (fs : FS) (req : String) :
    (Url.parse req = none → processRequest h fs req = (e404, fs)) ∧
    (∀ url, Url.parse req = some url →
      (∀ p ∈ candidates url h.tmpdir ++ candidates url ".", fsOpen fs p = none) →
      processRequest h fs req = (e404, fs)) := by
  constructor
  · intro hn
    unfold processRequest
    rw [hn]
  · intro url hp habs
    rw [processRequest_parsed h fs req url hp]
    have hres : resolveEither fs url h.tmpdir "." = none := by
      rw [resolveEither, List.find?_eq_none]
      intro p hpmem
      simp [habs p hpmem]
    rw [hres]
    rfl

/-- Witness for `absent_asset_404` at concrete inputs. -/
theorem absent_asset_404_witness :
    processRequest ⟨"tmp", false⟩ [] "/" = (e404, []) ∧
    processRequest ⟨"tmp", false⟩ [] "http://h/zzz" = (e404, []) :=
  ⟨(absent_asset_404 ⟨"tmp", false⟩ [] "/").1 (by decide),
   (absent_asset_404 ⟨"tmp", false⟩ [] "http://h/zzz").2 ⟨"/zzz"⟩ (by decide) (by decide)⟩

/-- C6.  The generated bootstrap script is, line for line, the template body
followed by exactly one registration line per test name in the order the
names were supplied and then the single invocation of the entry routine
(first conjunct); at the claim's concrete instance the script contains
exactly one import reference to `./m`, one initializer reference to
`./m_bg.wasm`, one serialized argument list for the two arguments, one
registration statement for each of "a" and "b", and one invocation (second
conjunct). -/
theorem bootstrap_script_layout :
    (∀ (m : String) (args : List String) (tests : List String),
      (∀ t ∈ tests, '\n' ∉ t.data) →
      linesOf (jsToExecute m args tests).data
        = linesOf (jsHdrBody m args).data ++ linesTail tests "    ".data) ∧
    (occCount (regText "a").data (jsToExecute "m" ["--filter", "foo"] ["a", "b"]).data = 1 ∧
     occCount (regText "b").data (jsToExecute "m" ["--filter", "foo"] ["a", "b"]).data = 1 ∧
     occCount "main(tests);".data (jsToExecute "m" ["--filter", "foo"] ["a", "b"]).data = 1 ∧
     occCount "from \x27./m\x27;".data
       (jsToExecute "m" ["--filter", "foo"] ["a", "b"]).data = 1 ∧
     occCount "init(\x27./m_bg.wasm\x27)".data
       (jsToExecute "m" ["--filter", "foo"] ["a", "b"]).data = 1 ∧
     occCount "cx.args([\x22--filter\x22, \x22foo\x22]);".data
       (jsToExecute "m" ["--filter", "foo"] ["a", "b"]).data = 1) :=
  ⟨bootstrap_lines, by decide⟩

/-- Witness for `bootstrap_script_layout` at the claim's concrete inputs. -/
theorem bootstrap_script_layout_witness :
    linesOf (jsToExecute "m" ["--filter", "foo"] ["a", "b"]).data
      = linesOf (jsHdrBody "m" ["--filter", "foo"]).data
        ++ linesTail ["a", "b"] "    ".data :=
  bootstrap_script_layout.1 "m" ["--filter", "foo"] ["a", "b"] (by decide)

/-- C7.  The content-type classifier is a total function into the four fixed
content-type strings, mapping the `js`, `wasm` and `html` extensions to
their canonical types and everything else (other extensions, or none) to the
generic binary type. -/
theorem mime_table_total (p : String) :
    (mime p = "text/javascript" ∨ mime p = "application/wasm" ∨
      mime p = "text/html" ∨ mime p = "application/octet-stream") ∧
    (pathExt p = some "js" → mime p = "text/javascript") ∧
    (pathExt p = some "wasm" → mime p = "application/wasm") ∧
    (pathExt p = some "html" → mime p = "text/html") ∧
    (pathExt p = none → mime p = "application/octet-stream") ∧
    (∀ e, pathExt p = some e → e ≠ "js" → e ≠ "wasm" → e ≠ "html" →
      mime p = "application/octet-stream") := by
  refine ⟨?_, ?_, ?_, ?_, ?_, ?_⟩
  · unfold mime
    split <;> simp
  · intro h; simp [mime, h]
  · intro h; simp [mime, h]
  · intro h; simp [mime, h]
  · intro h; simp [mime, h]
  · intro e he h1 h2 h3
    unfold mime
    rw [he]
    split <;> simp_all

/-- Witness for `mime_table_total` at concrete inputs. -/
theorem mime_table_total_witness :
    mime "a/b.js" = "text/javascript" ∧ mime "a/b.css" = "application/octet-stream" :=
  ⟨(mime_table_total "a/b.js").2.1 (by decide),
   (mime_table_total "a/b.css").2.2.2.2.2 "css" (by decide)
     (by decide) (by decide) (by decide)⟩

/-- C8.  `spawn` succeeds exactly when both the bootstrap-script write and
the socket bind succeed; a write failure is reported (with its context
message) before any bind is considered; whenever the write succeeds the
script is on disk under its fixed name `tmpdir/run.js` — in particular
already when the bind then fails — and on success the returned server holds
the constructed handler state. -/
theorem spawn_write_then_bind (addr : String) (hl : Bool) (module tmpdir : String)
    (args tests : List String) (w : SpawnWorld) :
    ((spawn addr hl module tmpdir args tests w).1.isOk = true
        ↔ (w.writeOk = true ∧ w.bindOk = true)) ∧
    (w.writeOk = false →
      spawn addr hl module tmpdir args tests w = (.error "failed to write JS file", w)) ∧
    (w.writeOk = true →
      fsOpen (spawn addr hl module tmpdir args tests w).2.fs (pathJoin tmpdir "run.js")
        = some (jsToExecute module args tests)) ∧
    (∀ s w2, spawn addr hl module tmpdir args tests w = (.ok s, w2) →
      s.handler = { tmpdir := tmpdir, headless := hl } ∧
      fsOpen w2.fs (pathJoin tmpdir "run.js") = some (jsToExecute module args tests)) := by
  obtain ⟨fs0, wOk, bOk⟩ := w
  cases wOk <;> cases bOk <;>
    simp [spawn, fsWrite, bindSocket, fsOpen, Except.isOk, Except.toBool]

/-- Witness for `spawn_write_then_bind` at concrete inputs. -/
theorem spawn_write_then_bind_witness :
    fsOpen (spawn "addr" true "m" "tmp" [] [] ⟨[], true, true⟩).2.fs
        (pathJoin "tmp" "run.js")
      = some (jsToExecute "m" [] []) :=
  (spawn_write_then_bind "addr" true "m" "tmp" [] [] ⟨[], true, true⟩).2.2.1 rfl

/-- C9.  Handling a request leaves the filesystem (and the immutable handler
state, which the model passes by value) unchanged, and a second identical
request against the resulting state returns the identical response. -/
theorem request_handling_pure (h : Handler) (fs : FS) (req : String) :
    (processRequest h fs req).2 = fs ∧
    processRequest h (processRequest h fs req).2 req = processRequest h fs req := by
  have h2 : (processRequest h fs req).2 = fs := by
    unfold processRequest
    cases Url.parse req with
    | none => rfl
    | some url =>
      by_cases hr : req = "/"
      · simp [hr]
      · simp only [if_neg hr]
        cases tryAsset fs url h.tmpdir with
        | some r => rfl
        | none =>
          cases tryAsset fs url "." with
          | some r => rfl
          | none => rfl
  exact ⟨h2, by rw [h2]⟩

/-- C10.  For a parsed URL whose path does not begin with the separator, the
asset resolver returns nothing and opens no file at all, for every root; the
request is therefore answered with the not-found response. -/
theorem no_leading_slash_rejected :
    (∀ (fs : FS) (url : Url) (dir : String),
      url.path.data.head? ≠ some '/' → tryAssetAcc fs url dir = (none, [])) ∧
    (∀ (h : Handler) (fs : FS) (req : String) (u : Url),
      Url.parse req = some u → u.path.data.head? ≠ some '/' →
      processRequest h fs req = (e404, fs)) := by
  have part1 : ∀ (fs : FS) (url : Url) (dir : String),
      url.path.data.head? ≠ some '/' → tryAssetAcc fs url dir = (none, []) := by
    intro fs url dir hh
    unfold tryAssetAcc
    rw [stripSlash_eq_none hh]
  refine ⟨part1, ?_⟩
  intro h fs req u hp hh
  rw [processRequest_parsed h fs req u hp]
  have hc1 : candidates u h.tmpdir = [] := by
    unfold candidates
    rw [stripSlash_eq_none hh]
  have hc2 : candidates u "." = [] := by
    unfold candidates
    rw [stripSlash_eq_none hh]
  simp [resolveEither, hc1, hc2]

/-- Witness for `no_leading_slash_rejected` at a cannot-be-a-base URL. -/
theorem no_leading_slash_rejected_witness :
    tryAssetAcc [] ⟨"text/plain"⟩ "tmp" = (none, []) ∧
    processRequest ⟨"tmp", false⟩ [] "data:text/plain" = (e404, []) :=
  ⟨no_leading_slash_rejected.1 [] ⟨"text/plain"⟩ "tmp" (by decide),
   no_leading_slash_rejected.2 ⟨"tmp", false⟩ [] "data:text/plain" ⟨"text/plain"⟩
     (by decide) (by decide)⟩

end WbgServer
